import Mathlib

/-!
Verification of the Fairway Content Library query engine (`src/App.js`).

The development shallowly embeds the pure logic of the application:
JavaScript strings are modelled as Lean `String`s (with character-level
operations on `String.data`), JavaScript numbers appearing in the logic are
modelled as `Int`/`Nat`/`ℚ` (the values manipulated are integers and exact
rationals; `NaN` is modelled with `Option`), and missing object fields are
modelled with `Option`.  `Array.prototype.sort` (stable, consistent
comparator, `NaN` comparator results treated as `0` per `SortCompare`) is
modelled with `List.insertionSort` over the comparator-induced relation.
-/

namespace FairwayLib

/-! ### Character-level string model

JS `String.prototype.toLowerCase`, `trim`, `includes`, `split` and
`Array.prototype.join` modelled on `List Char`.  `toLowerCase` is modelled
with `Char.toLower` characterwise, `trim`/`split` with the Lean whitespace
predicate (the catalog data is ASCII). -/

/-- Characterwise lower-casing, modelling `toLowerCase`. -/
def lowerChars (cs : List Char) : List Char := cs.map Char.toLower

/-- `String.prototype.trim`: drop whitespace from both ends. -/
def trimChars (cs : List Char) : List Char :=
  ((cs.dropWhile Char.isWhitespace).reverse.dropWhile Char.isWhitespace).reverse

/-- Does `hay` start with `need`?  (Helper for `hasSub`.) -/
def swAt : List Char → List Char → Bool
  | _, [] => true
  | [], _ :: _ => false
  | h :: hs, n :: ns => h = n && swAt hs ns

/-- `String.prototype.includes`: does `need` occur contiguously in `hay`? -/
def hasSub : List Char → List Char → Bool
  | hay, need =>
    if swAt hay need then true
    else
      match hay with
      | [] => false
      | _ :: rest => hasSub rest need

/-- Split a character list at every character satisfying `p`, keeping empty
segments (so `String.prototype.split` on a single-character separator; the
app splits on `/\s+/` after trimming, and skips the empty segments this
model produces for runs via its `if (!w) continue` guard). -/
def splitBy (p : Char → Bool) : List Char → List (List Char)
  | [] => [[]]
  | c :: rest =>
    match splitBy p rest, p c with
    | r, true => [] :: r
    | [], false => [[c]]
    | g :: gs, false => (c :: g) :: gs

/-- `Array.prototype.join(sep)`. -/
def joinSep (sep : String) : List String → String
  | [] => ""
  | [x] => x
  | x :: rest => x ++ sep ++ joinSep sep rest

/-- Numeric value of a non-empty all-digit character group (the digit
groups accepted by the date parser below). -/
def charsToNat (cs : List Char) : Option Nat :=
  if cs ≠ [] ∧ cs.all Char.isDigit then
    some (cs.foldl (fun n c => n * 10 + (c.toNat - 48)) 0)
  else none

/-! ### Date model

The app builds `Date` values only from catalog `release_date` strings
(ISO `YYYY-MM-DD`).  We model the `Date` builtin restricted to the
date-only Date Time String Format: a well-formed `YYYY-MM-DD` string with
an in-range calendar date parses to a UTC-midnight time value
(milliseconds since the epoch); every other string is an Invalid Date,
whose time value and `getFullYear()` are `NaN` (modelled as `none`). -/

/-- Gregorian leap year. -/
def isLeap (y : Nat) : Bool := (y % 4 = 0 && y % 100 ≠ 0) || y % 400 = 0

/-- Days in month `m` of year `y`. -/
def daysInMonth (y m : Nat) : Nat :=
  if m = 2 then (if isLeap y then 29 else 28)
  else if m = 4 ∨ m = 6 ∨ m = 9 ∨ m = 11 then 30
  else 31

/-- Days from the epoch 1970-01-01 to the civil date `y-m-d`
(standard civil-from-days arithmetic). -/
def daysFromCivil (y m d : Int) : Int :=
  let y2 := if m ≤ 2 then y - 1 else y
  let era := (if 0 ≤ y2 then y2 else y2 - 399) / 400
  let yoe := y2 - era * 400
  let mp := (m + 9) % 12
  let doy := (153 * mp + 2) / 5 + d - 1
  let doe := yoe * 365 + yoe / 4 - yoe / 100 + doy
  era * 146097 + doe - 719468

/-- Parse an ISO `YYYY-MM-DD` string to its calendar components; `none` is
an Invalid Date. -/
def parseYMD (s : String) : Option (Nat × Nat × Nat) :=
  match splitBy (fun c => c = '-') s.data with
  | [ys, ms, ds] =>
    if ys.length = 4 ∧ ms.length = 2 ∧ ds.length = 2 then
      match charsToNat ys, charsToNat ms, charsToNat ds with
      | some y, some m, some d =>
        if 1 ≤ m ∧ m ≤ 12 ∧ 1 ≤ d ∧ d ≤ daysInMonth y m then some (y, m, d)
        else none
      | _, _, _ => none
    else none
  | _ => none

/-- `new Date(iso).getTime()` in milliseconds; `none` is `NaN`
(absent `release_date` gives `new Date(undefined)`, also Invalid). -/
def jsGetTime (iso : Option String) : Option Int :=
  match iso with
  | some s =>
    (parseYMD s).map fun ymd =>
      daysFromCivil ymd.1 ymd.2.1 ymd.2.2 * 86400000
  | none => none

/-- `new Date(iso).getFullYear()` (UTC environment); `NaN` for an Invalid
Date, modelled as `none`. -/
def jsFullYear (iso : Option String) : Option Nat :=
  match iso with
  | some s => (parseYMD s).map (·.1)
  | none => none

/-- `computeYear` from `App.js`: `String(new Date(iso).getFullYear())`.
`getFullYear()` of an Invalid Date returns `NaN` without throwing, and
`String(NaN)` is `"NaN"`, so the `catch` branch returning `""` in the
source is unreachable; the embedding records the actual behaviour. -/
def computeYear (iso : Option String) : String :=
  match jsFullYear iso with
  | some y => toString y
  | none => "NaN"

/-! ### Data model: Content Item and the built-in SAMPLE catalog -/

/-- A catalog Content Item (the JSON shape documented at the top of
`App.js`); optional fields are `Option`. -/
structure Item where
  id : Int := 0
  slug : String := ""
  title : Option String := none
  summary : Option String := none
  industries : Option (List String) := none
  personas : Option (List String) := none
  topics : Option (List String) := none
  tags : Option (List String) := none
  funnel_stage : Option String := none
  release_date : Option String := none
  version : Int := 0
  read_time_min : Option Int := none
  words : Option Int := none
  duration_sec : Option Int := none
  content_type : Option String := none
  file_url : String := ""
  cover_url : Option String := none
deriving DecidableEq, Repr

/-- First fallback item of `SAMPLE`. -/
def sample1 : Item where
  id := 1
  slug := "zero-trust-2025"
  title := some "Zero Trust for 2025: Practical Roadmap"
  summary := some "A pragmatic guide to sequencing identity, device posture, and micro-segmentation for mid-market enterprises."
  industries := some ["Tech", "Finance"]
  personas := some ["CISO", "CIO"]
  topics := some ["Zero Trust", "Identity", "Micro-segmentation"]
  tags := some ["Security", "Architecture"]
  funnel_stage := some "Consideration"
  release_date := some "2025-10-15"
  version := 2
  read_time_min := some 11
  words := some 2450
  content_type := some "whitepaper"
  file_url := "https://example.com/zero-trust.pdf"
  cover_url := some "https://picsum.photos/seed/zt/640/360"

/-- Second fallback item of `SAMPLE`. -/
def sample2 : Item where
  id := 2
  slug := "ai-governance-intro"
  title := some "AI Governance Explained (Short Video)"
  summary := some "A 2-minute explainer on policy, model evals, and provenance."
  industries := some ["Tech"]
  personas := some ["CTO", "Head of Data"]
  topics := some ["LLM", "Safety", "Provenance"]
  tags := some ["AI", "Video"]
  funnel_stage := some "Awareness"
  release_date := some "2025-08-01"
  version := 1
  duration_sec := some 125
  content_type := some "video"
  file_url := "https://www.w3schools.com/html/mov_bbb.mp4"
  cover_url := some "https://picsum.photos/seed/ai/640/360"

/-- Third fallback item of `SAMPLE`. -/
def sample3 : Item where
  id := 3
  slug := "developer-intent-blueprint"
  title := some "Developer Intent Blueprint"
  summary := some "How to use public, verifiable signals to prioritize accounts without renting a DMP."
  industries := some ["SaaS", "Tech"]
  personas := some ["VP Marketing", "Growth"]
  topics := some ["Developer Intent", "ABM", "Data"]
  tags := some ["Demand Gen", "Signals"]
  funnel_stage := some "Decision"
  release_date := some "2025-09-20"
  version := 3
  read_time_min := some 13
  words := some 3100
  content_type := some "whitepaper"
  file_url := "https://example.com/dev-intent.pdf"
  cover_url := some "https://picsum.photos/seed/dev/640/360"

/-- `SAMPLE.items`: the fixed 3-item fallback catalog. -/
def SAMPLE_items : List Item := [sample1, sample2, sample3]

/-! ### Small utilities from `App.js` -/

/-- `clamp(n, min, max) = Math.max(min, Math.min(max, n))`. -/
def clamp (n mn mx : Nat) : Nat := max mn (min mx n)

/-- `includesI(haystack, needle)`:
`haystack.toLowerCase().includes(needle.toLowerCase())`. -/
def includesI (haystack needle : String) : Bool :=
  hasSub (lowerChars haystack.data) (lowerChars needle.data)

/-- The field list joined inside `fullTextMatch`: title, summary, then the
spreads of topics, tags, personas, industries (missing fields default to
`""` / `[]`). -/
def ftFields (p : Item) : List String :=
  [p.title.getD "", p.summary.getD ""] ++ p.topics.getD [] ++ p.tags.getD []
    ++ p.personas.getD [] ++ p.industries.getD []

/-- `fullTextMatch(p, q)`: an empty term always passes; otherwise the
fields joined with `" \n "` must contain the term case-insensitively. -/
def fullTextMatch (p : Item) (q : String) : Bool :=
  if q = "" then true
  else includesI (joinSep " \n " (ftFields p)) q

/-- `tally(arr)`: a JS object used as a multiset,
`m[k] = (m[k] || 0) + 1`; modelled as an insertion-ordered association
list.  `bump` is a single `m[k] = (m[k] || 0) + 1` step. -/
def bump : List (String × Nat) → String → List (String × Nat)
  | [], k => [(k, 1)]
  | (k', n) :: rest, k =>
    if k' = k then (k', n + 1) :: rest else (k', n) :: bump rest k

/-- `tally(arr)` from `App.js`. -/
def tally (arr : List String) : List (String × Nat) := arr.foldl bump []

/-- Reading a count out of a tally (`m[k] || 0`). -/
def tallyGet (m : List (String × Nat)) (k : String) : Nat :=
  ((m.find? fun e => e.1 = k).map (·.2)).getD 0

/-- Sum of all counts in a tally. -/
def tallyTotal (m : List (String × Nat)) : Nat := (m.map (·.2)).sum

/-! ### Query State and the filter stage (`filtered` memo) -/

/-- The UI query state feeding the filter/sort/paginate pipeline. -/
structure QueryState where
  q : String := ""
  ctype : List String := []
  industries : List String := []
  personas : List String := []
  topics : List String := []
  tags : List String := []
  stage : List String := []
  year : List String := []
  sort : String := "relevance"
  page : Nat := 1
  pageSize : Nat := 12
deriving DecidableEq, Repr

/-- `arr.includes(v)` where `v` may be `undefined` (an absent field):
`includes(undefined)` on a list of strings is `false`. -/
def includesOpt (sel : List String) (v : Option String) : Bool :=
  match v with
  | some s => sel.contains s
  | none => false

/-- One single-valued dimension check from `filtered`
(`!(sel.length && !sel.includes(v))`). -/
def singleOk (sel : List String) (v : Option String) : Bool :=
  sel.isEmpty || includesOpt sel v

/-- One multi-valued dimension check from `filtered`
(`!(sel.length && !sel.every(v => (labels || []).includes(v)))`). -/
def multiOk (sel : List String) (labels : Option (List String)) : Bool :=
  sel.isEmpty || sel.all fun v => (labels.getD []).contains v

/-- The year dimension check from `filtered`
(`!(year.length && !year.includes(computeYear(p.release_date)))`). -/
def yearOk (sel : List String) (rd : Option String) : Bool :=
  sel.isEmpty || sel.contains (computeYear rd)

/-- The `filtered` predicate: the conjunction of the early-return guards
of the `items.filter` callback, in source order. -/
def itemPasses (st : QueryState) (qTrim : String) (p : Item) : Bool :=
  fullTextMatch p qTrim &&
  singleOk st.ctype p.content_type &&
  multiOk st.industries p.industries &&
  multiOk st.personas p.personas &&
  multiOk st.topics p.topics &&
  multiOk st.tags p.tags &&
  singleOk st.stage p.funnel_stage &&
  yearOk st.year p.release_date

/-- The `filtered` memo: `items.filter(...)` with `qTrim = q.trim()`. -/
def filteredList (st : QueryState) (items : List Item) : List Item :=
  items.filter (itemPasses st ⟨trimChars st.q.data⟩)

/-! ### Facet tallies (the `facets` memo) -/

/-- `type` facet labels: `p.content_type || "content"`, one per item. -/
def facetType (fl : List Item) : List (String × Nat) :=
  tally (fl.map fun p => p.content_type.getD "content")

/-- `year` facet labels: `computeYear(p.release_date)`, one per item. -/
def facetYear (fl : List Item) : List (String × Nat) :=
  tally (fl.map fun p => computeYear p.release_date)

/-- `industries` facet labels: `flatMap(p => p.industries || [])`. -/
def facetIndustries (fl : List Item) : List (String × Nat) :=
  tally (fl.flatMap fun p => p.industries.getD [])

/-- `personas` facet labels. -/
def facetPersonas (fl : List Item) : List (String × Nat) :=
  tally (fl.flatMap fun p => p.personas.getD [])

/-- `topics` facet labels. -/
def facetTopics (fl : List Item) : List (String × Nat) :=
  tally (fl.flatMap fun p => p.topics.getD [])

/-- `tags` facet labels. -/
def facetTags (fl : List Item) : List (String × Nat) :=
  tally (fl.flatMap fun p => p.tags.getD [])

/-- `stage` facet labels: `p.funnel_stage`, one per item; an absent stage
is the property key `"undefined"` (JS object keys are strings). -/
def facetStage (fl : List Item) : List (String × Nat) :=
  tally (fl.map fun p => p.funnel_stage.getD "undefined")

/-! ### Sorting (the `sorted` memo)

`Array.prototype.sort(cmp)` with a numeric comparator: the result is a
stable permutation ordered by `cmp(a, b) <= 0`; a `NaN` comparator value is
treated as `0` by `SortCompare` (the two elements compare equal).  Each
branch of the `switch` is modelled as `List.insertionSort` over the
comparator-induced boolean relation. -/

/-- Comparator value `new Date(x) - new Date(y)` as an optional integer
(`none` is `NaN`, arising from an unparseable date). -/
def dateDiff (x y : Item) : Option Int :=
  match jsGetTime x.release_date, jsGetTime y.release_date with
  | some tx, some ty => some (tx - ty)
  | _, _ => none

/-- `newest` ordering: `cmp(a, b) = dateB - dateA`; `le a b` iff the
comparator (with `NaN` treated as `0`) is `<= 0`. -/
def newestLe (a b : Item) : Bool :=
  match dateDiff b a with
  | some d => d ≤ 0
  | none => true

/-- `oldest` ordering: `cmp(a, b) = dateA - dateB`. -/
def oldestLe (a b : Item) : Bool :=
  match dateDiff a b with
  | some d => d ≤ 0
  | none => true

/-- `a.read_time_min || 0`. -/
def readTime (p : Item) : Int := p.read_time_min.getD 0

/-- `shortest` ordering:
`cmp(a, b) = (rtA - rtB) || (dateB - dateA)` (the `||` takes the date
difference exactly when the read-time difference is `0`). -/
def shortestLe (a b : Item) : Bool :=
  if readTime a - readTime b ≠ 0 then readTime a - readTime b ≤ 0
  else
    match dateDiff b a with
    | some d2 => d2 ≤ 0
    | none => true

/-- `longest` ordering: `cmp(a, b) = (rtB - rtA) || (dateB - dateA)`. -/
def longestLe (a b : Item) : Bool :=
  if readTime b - readTime a ≠ 0 then readTime b - readTime a ≤ 0
  else
    match dateDiff b a with
    | some d2 => d2 ≤ 0
    | none => true

/-- Search terms for relevance scoring:
`q.trim().toLowerCase().split(/\s+/)` (the empty segments our splitter
keeps for whitespace runs are skipped by the scoring loop's
`if (!w) continue`). -/
def terms (q : String) : List (List Char) :=
  splitBy Char.isWhitespace (lowerChars (trimChars q.data))

/-- The concatenated text scored for the `+1` bonus:
title, summary and the joined label arrays, newline-separated. -/
def scoreText (p : Item) : String :=
  (p.title.getD "") ++ "\n" ++ (p.summary.getD "") ++ "\n" ++
  joinSep " " (p.topics.getD []) ++ "\n" ++ joinSep " " (p.tags.getD []) ++ "\n" ++
  joinSep " " (p.personas.getD []) ++ "\n" ++ joinSep " " (p.industries.getD [])

/-- Per-token score: `+5` title hit, `+2` summary hit, `+1` hit anywhere
in the concatenation (`w` is already lower-cased). -/
def hitScore (p : Item) (w : List Char) : ℚ :=
  (if hasSub (lowerChars (p.title.getD "").data) w then 5 else 0) +
  (if hasSub (lowerChars (p.summary.getD "").data) w then 2 else 0) +
  (if hasSub (lowerChars (scoreText p).data) w then 1 else 0)

/-- `score(p)` from the relevance branch: the token-hit loop plus the
recency bonus `Math.max(0, 2 - yearsOld)` with
`yearsOld = (Date.now() - date.getTime()) / (1000*60*60*24*365)`.
`none` is `NaN` (an unparseable `release_date` makes `yearsOld`, and hence
the whole score, `NaN`). -/
def score (now : Int) (q : String) (p : Item) : Option ℚ :=
  match jsGetTime p.release_date with
  | some t =>
    some ((terms q).foldl (fun acc w => if w = [] then acc else acc + hitScore p w) 0
      + max 0 (2 - ((now - t : Int) : ℚ) / 31536000000))
  | none => none

/-- relevance ordering: `cmp(a, b) = score(b) - score(a)`. -/
def relevLe (now : Int) (q : String) (a b : Item) : Bool :=
  match score now q b, score now q a with
  | some sb, some sa => sb - sa ≤ 0
  | _, _ => true

/-- The `sorted` memo: dispatch on the sort mode (`switch (sort)`); the
`default` branch is relevance when the trimmed term is non-empty and
newest otherwise. -/
def sortedItems (sortMode : String) (q : String) (now : Int) (l : List Item) :
    List Item :=
  match sortMode with
  | "newest" => List.insertionSort (fun a b => newestLe a b = true) l
  | "oldest" => List.insertionSort (fun a b => oldestLe a b = true) l
  | "shortest" => List.insertionSort (fun a b => shortestLe a b = true) l
  | "longest" => List.insertionSort (fun a b => longestLe a b = true) l
  | _ =>
    if (⟨trimChars q.data⟩ : String) ≠ "" then
      List.insertionSort (fun a b => relevLe now q a b = true) l
    else
      List.insertionSort (fun a b => newestLe a b = true) l

/-! ### Pagination -/

/-- `Math.ceil(total / pageSize)` for `pageSize >= 1`. -/
def ceilDiv (total pageSize : Nat) : Nat := (total + pageSize - 1) / pageSize

/-- `pageCount = Math.max(1, Math.ceil(total / pageSize))`. -/
def pageCount (total pageSize : Nat) : Nat := max 1 (ceilDiv total pageSize)

/-- `safePage = clamp(page, 1, pageCount)`. -/
def safePage (page pc : Nat) : Nat := clamp page 1 pc

/-- `Array.prototype.slice(a, b)` (non-negative indices). -/
def jsSlice (l : List Item) (a b : Nat) : List Item := (l.drop a).take (b - a)

/-- `pageItems = sorted.slice((safePage - 1) * pageSize, safePage * pageSize)`. -/
def pageItems (l : List Item) (sp pageSize : Nat) : List Item :=
  jsSlice l ((sp - 1) * pageSize) (sp * pageSize)

/-! ### Catalog loader (the fetch effect)

The `run` closure inside the `useEffect`, modelled as a function of the
outcome of `fetch` + `r.json()`.  A JSON body is classified by the shape
tests the code performs: `Array.isArray(json)`, then `json.items || []`.
Accessing `.items` on `null` throws a `TypeError` (caught by the same
`catch` as fetch errors), while on a primitive it is `undefined`. -/

/-- The `items` property of a non-null, non-array JSON object body. -/
inductive ItemsProp where
  /-- `items` is an array of content items. -/
  | arrayItems (l : List Item)
  /-- `items` is some truthy non-array value. -/
  | truthyOther
  /-- `items` is a falsy value (e.g. `0`, `""`, `false`, `null`). -/
  | falsyOther
deriving DecidableEq, Repr

/-- The parsed JSON body, classified by the loader's shape tests. -/
inductive JsonBody where
  /-- the body is an array of content items (`Array.isArray` true). -/
  | array (l : List Item)
  /-- the body is JSON `null` (`.items` access throws). -/
  | jsonNull
  /-- the body is a non-null object; `items?` is its `items` property
  (`none` when absent, i.e. `undefined`). -/
  | obj (itemsProp : Option ItemsProp)
  /-- the body is a primitive (number/string/boolean): `.items` is
  `undefined`. -/
  | prim
deriving DecidableEq, Repr

/-- Outcome of `await fetch(...)` / `await r.json()`. -/
inductive FetchResult where
  /-- `r.ok` was true and the body parsed as JSON. -/
  | success (body : JsonBody)
  /-- `!r.ok`: the code throws `new Error("HTTP " + status)`. -/
  | httpError (status : Nat)
  /-- the fetch itself rejected. -/
  | networkError
  /-- `r.json()` rejected (malformed JSON). -/
  | jsonParseError
deriving DecidableEq, Repr

/-- What `setItems` receives: the app expects an array, but
`json.items || []` can hand it a truthy non-array value. -/
inductive ItemsValue where
  /-- an array of items. -/
  | list (l : List Item)
  /-- a truthy non-array value. -/
  | nonArray
deriving DecidableEq, Repr

/-- The component state set by the loader. -/
structure LoadResult where
  items : ItemsValue
  error : String
  loading : Bool
deriving DecidableEq, Repr

/-- `Array.isArray(json) ? json : json.items || []`; `none` models the
`TypeError` thrown by `null.items`. -/
def extractArr : JsonBody → Option ItemsValue
  | .array l => some (.list l)
  | .jsonNull => none
  | .obj (some (.arrayItems l)) => some (.list l)
  | .obj (some .truthyOther) => some .nonArray
  | .obj (some .falsyOther) => some (.list [])
  | .obj none => some (.list [])
  | .prim => some (.list [])

/-- The warning surfaced with the fallback catalog. -/
def fallbackMsg : String := "Using fallback sample data."

/-- The loader `run` (with `DATA_URL` set and the effect not cancelled):
try branch sets the extracted array; any throw is caught, substituting
`SAMPLE.items` and the warning; `finally` clears `loading`. -/
def runLoad : FetchResult → LoadResult
  | .success body =>
    match extractArr body with
    | some v => ⟨v, "", false⟩
    | none => ⟨.list SAMPLE_items, fallbackMsg, false⟩
  | .httpError _ => ⟨.list SAMPLE_items, fallbackMsg, false⟩
  | .networkError => ⟨.list SAMPLE_items, fallbackMsg, false⟩
  | .jsonParseError => ⟨.list SAMPLE_items, fallbackMsg, false⟩

/-! ### Facet toggle -/

/-- `toggle`: remove `v` if present (`arr.filter(x => x !== v)`),
append it otherwise (`[...arr, v]`). -/
def toggle (arr : List String) (v : String) : List String :=
  if arr.contains v then arr.filter (fun x => x ≠ v) else arr ++ [v]

/-! ### Helper lemmas: substring search -/

/-- `swAt hay need` holds exactly when `need` is a prefix of `hay`. -/
theorem swAt_iff : ∀ hay need : List Char, swAt hay need = true ↔ ∃ b, hay = need ++ b
  | _, [] => by simp [swAt]
  | [], _ :: _ => by simp [swAt]
  | h :: hs, n :: ns => by
    simp only [swAt, Bool.and_eq_true, decide_eq_true_eq, swAt_iff hs ns,
      List.cons_append, List.cons.injEq]
    constructor
    · rintro ⟨rfl, b, rfl⟩
      exact ⟨b, rfl, rfl⟩
    · rintro ⟨b, rfl, rfl⟩
      exact ⟨rfl, b, rfl⟩

/-- `hasSub hay need` (JS `includes`) holds exactly when `need` occurs
contiguously inside `hay`. -/
theorem hasSub_iff : ∀ hay need : List Char,
    hasSub hay need = true ↔ ∃ a b, hay = a ++ need ++ b
  | [], need => by cases need <;> simp [hasSub, swAt]
  | h :: hs, need => by
    rw [hasSub]
    by_cases hsw : swAt (h :: hs) need = true
    · rw [if_pos hsw]
      refine ⟨fun _ => ?_, fun _ => rfl⟩
      obtain ⟨b, hb⟩ := (swAt_iff _ _).mp hsw
      exact ⟨[], b, by simp [hb]⟩
    · rw [if_neg hsw]
      show hasSub hs need = true ↔ _
      rw [hasSub_iff hs need]
      constructor
      · rintro ⟨a, b, rfl⟩
        exact ⟨h :: a, b, by simp⟩
      · rintro ⟨a, b, hab⟩
        cases a with
        | nil =>
          exfalso
          have : swAt (h :: hs) need = true := (swAt_iff _ _).mpr ⟨b, by simpa using hab⟩
          simp [this] at hsw
        | cons x a' =>
          refine ⟨a', b, ?_⟩
          have := List.cons.inj hab
          simpa using this.2

/-- Lower-casing distributes over append. -/
theorem lowerChars_append (x y : List Char) :
    lowerChars (x ++ y) = lowerChars x ++ lowerChars y :=
  List.map_append ..

/-- Every member of the joined field list occurs contiguously inside the
join. -/
theorem joinSep_mem_decomp (sep : String) :
    ∀ l : List String, ∀ f ∈ l, ∃ a b, (joinSep sep l).data = a ++ f.data ++ b
  | [], f, hf => absurd hf (List.not_mem_nil f)
  | [x], f, hf => by
    obtain rfl : f = x := by simpa using hf
    exact ⟨[], [], by simp [joinSep]⟩
  | x :: y :: ys, f, hf => by
    rcases List.mem_cons.mp hf with rfl | hf'
    · exact ⟨[], (sep ++ joinSep sep (y :: ys)).data, by simp [joinSep]⟩
    · obtain ⟨a, b, hab⟩ := joinSep_mem_decomp sep (y :: ys) f hf'
      refine ⟨x.data ++ sep.data ++ a, b, ?_⟩
      simp [joinSep, hab]

/-! ### Helper lemmas: a stable sort over a locally total, locally
transitive relation is pairwise-ordered -/

section SortHelpers

variable {α : Type*} (r : α → α → Prop) [DecidableRel r]

/-- `orderedInsert` preserves pairwise-orderedness when the inserted
element compares both ways with, and transports transitively over, the
list elements. -/
theorem pairwise_orderedInsert (x : α) :
    ∀ l : List α, l.Pairwise r →
      (∀ b ∈ l, r x b ∨ r b x) →
      (∀ b ∈ l, ∀ c ∈ l, r x b → r b c → r x c) →
      (List.orderedInsert r x l).Pairwise r
  | [], _, _, _ => List.pairwise_singleton r x
  | y :: ys, hl, htot, htr => by
    rw [List.orderedInsert]
    by_cases hxy : r x y
    · rw [if_pos hxy]
      refine List.pairwise_cons.mpr ⟨?_, hl⟩
      intro z hz
      rcases List.mem_cons.mp hz with rfl | hz'
      · exact hxy
      · exact htr y (List.mem_cons_self y ys) z (List.mem_cons_of_mem y hz') hxy
          ((List.pairwise_cons.mp hl).1 z hz')
    · rw [if_neg hxy]
      have hyx : r y x := (htot y (List.mem_cons_self y ys)).resolve_left hxy
      refine List.pairwise_cons.mpr ⟨?_, ?_⟩
      · intro z hz
        rcases (List.mem_orderedInsert r).mp hz with rfl | hz'
        · exact hyx
        · exact (List.pairwise_cons.mp hl).1 z hz'
      · exact pairwise_orderedInsert x ys (List.pairwise_cons.mp hl).2
          (fun b hb => htot b (List.mem_cons_of_mem y hb))
          (fun b hb c hc => htr b (List.mem_cons_of_mem y hb) c (List.mem_cons_of_mem y hc))

/-- `insertionSort` output is pairwise-ordered provided the relation is
total and transitive on the elements of the list. -/
theorem pairwise_insertionSort_of :
    ∀ l : List α,
      (∀ a ∈ l, ∀ b ∈ l, r a b ∨ r b a) →
      (∀ a ∈ l, ∀ b ∈ l, ∀ c ∈ l, r a b → r b c → r a c) →
      (List.insertionSort r l).Pairwise r
  | [], _, _ => List.Pairwise.nil
  | x :: xs, htot, htr => by
    rw [List.insertionSort]
    refine pairwise_orderedInsert r x _ ?_ ?_ ?_
    · exact pairwise_insertionSort_of xs
        (fun a ha b hb => htot a (List.mem_cons_of_mem x ha) b (List.mem_cons_of_mem x hb))
        (fun a ha b hb c hc => htr a (List.mem_cons_of_mem x ha) b (List.mem_cons_of_mem x hb)
          c (List.mem_cons_of_mem x hc))
    · intro b hb
      exact htot x (List.mem_cons_self x xs) b
        (List.mem_cons_of_mem x ((List.mem_insertionSort r).mp hb))
    · intro b hb c hc
      exact htr x (List.mem_cons_self x xs) b
        (List.mem_cons_of_mem x ((List.mem_insertionSort r).mp hb))
        c (List.mem_cons_of_mem x ((List.mem_insertionSort r).mp hc))

end SortHelpers

/-! ### Helper lemmas: tallies -/

/-- Bumping a key increments exactly that key's count. -/
theorem tallyGet_bump_self : ∀ (m : List (String × Nat)) (k : String),
    tallyGet (bump m k) k = tallyGet m k + 1
  | [], k => by simp [bump, tallyGet]
  | (k', n) :: rest, k => by
    by_cases h : k' = k
    · subst h
      simp [bump, tallyGet]
    · simp only [bump, if_neg h]
      simpa [tallyGet, List.find?, h] using tallyGet_bump_self rest k

/-- Bumping a key leaves every other key's count unchanged. -/
theorem tallyGet_bump_other : ∀ (m : List (String × Nat)) (k k' : String),
    k' ≠ k → tallyGet (bump m k) k' = tallyGet m k'
  | [], k, k', h => by simp [bump, tallyGet, List.find?, Ne.symm h]
  | (a, n) :: rest, k, k', h => by
    by_cases ha : a = k
    · subst ha
      simp [bump, tallyGet, List.find?, Ne.symm h]
    · simp only [bump, if_neg ha]
      by_cases ha' : a = k'
      · subst ha'
        simp [tallyGet, List.find?]
      · simpa [tallyGet, List.find?, ha'] using tallyGet_bump_other rest k k' h

/-- Bumping adds one to the total of all counts. -/
theorem tallyTotal_bump : ∀ (m : List (String × Nat)) (k : String),
    tallyTotal (bump m k) = tallyTotal m + 1
  | [], k => by simp [bump, tallyTotal]
  | (a, n) :: rest, k => by
    by_cases ha : a = k
    · subst ha
      simp [bump, tallyTotal, Nat.add_assoc, Nat.add_comm 1 _]
    · simp only [bump, if_neg ha]
      have := tallyTotal_bump rest k
      simp only [tallyTotal, List.map_cons, List.sum_cons] at this ⊢
      omega

/-- Folding `bump` over a label list adds each label's multiplicity. -/
theorem tallyGet_foldl : ∀ (arr : List String) (m : List (String × Nat)) (k : String),
    tallyGet (arr.foldl bump m) k = tallyGet m k + arr.count k
  | [], m, k => by simp
  | a :: arr, m, k => by
    rw [List.foldl_cons, tallyGet_foldl arr (bump m a) k]
    by_cases ha : a = k
    · subst ha
      rw [tallyGet_bump_self]
      simp [List.count_cons, Nat.add_assoc, Nat.add_comm 1 _]
    · rw [tallyGet_bump_other m a k (Ne.symm ha)]
      simp [List.count_cons, ha]

/-- Folding `bump` over a label list adds the list length to the total. -/
theorem tallyTotal_foldl : ∀ (arr : List String) (m : List (String × Nat)),
    tallyTotal (arr.foldl bump m) = tallyTotal m + arr.length
  | [], m => by simp
  | a :: arr, m => by
    rw [List.foldl_cons, tallyTotal_foldl arr (bump m a), tallyTotal_bump]
    simp [Nat.add_assoc, Nat.add_comm 1 _]

/-- A tally maps each label to its multiplicity in the label list. -/
theorem tallyGet_tally (arr : List String) (k : String) :
    tallyGet (tally arr) k = arr.count k := by
  rw [tally, tallyGet_foldl]
  simp [tallyGet]

/-- The counts of a tally sum to the length of the label list. -/
theorem tallyTotal_tally (arr : List String) :
    tallyTotal (tally arr) = arr.length := by
  rw [tally, tallyTotal_foldl]
  simp [tallyTotal]

/-! ### Helper lemmas: pagination arithmetic -/

/-- `ceilDiv` computes the real ceiling of `total / pageSize`
(`Math.ceil` on the exact quotient). -/
theorem ceilDiv_cast (n S : Nat) (hS : 1 ≤ S) :
    (ceilDiv n S : ℤ) = ⌈(n : ℚ) / (S : ℚ)⌉ := by
  have hS0 : (0 : ℚ) < (S : ℚ) := by exact_mod_cast hS
  symm
  rw [Int.ceil_eq_iff, ceilDiv]
  set q := (n + S - 1) / S with hq
  have hub : q * S ≤ n + S - 1 := Nat.div_mul_le_self _ _
  have hlb : n + S - 1 < q * S + S := Nat.lt_div_mul_add hS
  have key : n ≤ q * S ∧ q * S < n + S := by
    revert hub hlb
    generalize q * S = A
    intro hub hlb
    omega
  have c1 : (q : ℚ) * (S : ℚ) < (n : ℚ) + (S : ℚ) := by exact_mod_cast key.2
  have c2 : (n : ℚ) ≤ (q : ℚ) * (S : ℚ) := by exact_mod_cast key.1
  constructor
  · rw [lt_div_iff₀ hS0]
    push_cast
    linarith
  · rw [div_le_iff₀ hS0]
    push_cast
    linarith

/-! ### Helper lemmas: the scoring loop -/

/-- The scoring loop over tokens equals the sum of the per-token scores of
the non-empty tokens. -/
theorem foldl_hitScore (p : Item) : ∀ (ws : List (List Char)) (acc : ℚ),
    ws.foldl (fun acc w => if w = [] then acc else acc + hitScore p w) acc
      = acc + (((ws.filter fun w => w ≠ []).map (hitScore p)).sum)
  | [], acc => by simp
  | w :: ws, acc => by
    by_cases hw : w = []
    · subst hw
      rw [List.foldl_cons, if_pos rfl, foldl_hitScore p ws acc]
      simp
    · rw [List.foldl_cons, if_neg hw, foldl_hitScore p ws (acc + hitScore p w)]
      simp [List.filter_cons, hw, add_assoc]

/-! ### Helper lemmas: comparator characterizations on parseable dates -/

/-- `score` evaluated at an item with a parseable date: the per-token sum
over the non-empty tokens plus the recency bonus. -/
theorem score_eq_some (now : Int) (q : String) (p : Item) (t : Int)
    (ht : jsGetTime p.release_date = some t) :
    score now q p
      = some ((((terms q).filter fun w => w ≠ []).map (hitScore p)).sum
          + max 0 (2 - ((now - t : Int) : ℚ) / 31536000000)) := by
  simp only [score, ht]
  rw [foldl_hitScore]
  simp

/-- The relevance comparator on two items with defined scores orders by
score descending. -/
theorem relevLe_char (now : Int) (q : String) (a b : Item) (sa sb : ℚ)
    (ha : score now q a = some sa) (hb : score now q b = some sb) :
    relevLe now q a b = true ↔ sb ≤ sa := by
  simp only [relevLe, ha, hb, decide_eq_true_eq]
  constructor
  · intro h
    linarith
  · intro h
    linarith

/-- The `shortest` comparator on items with parseable dates: read time
ascending, ties broken by date descending. -/
theorem shortestLe_char (a b : Item) (ta tb : Int)
    (ha : jsGetTime a.release_date = some ta)
    (hb : jsGetTime b.release_date = some tb) :
    shortestLe a b = true ↔
      (readTime a < readTime b ∨ (readTime a = readTime b ∧ tb ≤ ta)) := by
  simp only [shortestLe, dateDiff, ha, hb]
  by_cases h : readTime a - readTime b ≠ 0
  · rw [if_pos h]
    simp only [decide_eq_true_eq]
    omega
  · rw [if_neg h]
    simp only [decide_eq_true_eq]
    omega

/-- The `longest` comparator on items with parseable dates: read time
descending, ties broken by date descending. -/
theorem longestLe_char (a b : Item) (ta tb : Int)
    (ha : jsGetTime a.release_date = some ta)
    (hb : jsGetTime b.release_date = some tb) :
    longestLe a b = true ↔
      (readTime b < readTime a ∨ (readTime a = readTime b ∧ tb ≤ ta)) := by
  simp only [longestLe, dateDiff, ha, hb]
  by_cases h : readTime b - readTime a ≠ 0
  · rw [if_pos h]
    simp only [decide_eq_true_eq]
    omega
  · rw [if_neg h]
    simp only [decide_eq_true_eq]
    omega

/-! ## The claims -/

/-- Claim C10: the facet-selection toggle is a set-level involution: for
every duplicate-free selection list `arr` and value `v`, toggling `v` once
removes `v` from `arr` if present and appends it if absent, and toggling
`v` twice yields a list whose membership equals that of the original
`arr`. -/
theorem claim_C10 (arr : List String) (v : String) (_hnd : arr.Nodup) :
    (v ∈ arr → toggle arr v = arr.filter fun x => x ≠ v) ∧
    (v ∉ arr → toggle arr v = arr ++ [v]) ∧
    (∀ x, x ∈ toggle (toggle arr v) v ↔ x ∈ arr) := by
  refine ⟨fun hv => ?_, fun hv => ?_, fun x => ?_⟩
  · rw [toggle, if_pos (by simpa using hv)]
  · rw [toggle, if_neg (by simpa using hv)]
  · by_cases hv : v ∈ arr
    · have h1 : toggle arr v = arr.filter fun x => x ≠ v := by
        rw [toggle, if_pos (by simpa using hv)]
      have h2 : toggle (arr.filter fun x => x ≠ v) v
          = (arr.filter fun x => x ≠ v) ++ [v] := by
        rw [toggle, if_neg (by simp)]
      rw [h1, h2]
      simp only [List.mem_append, List.mem_filter, List.mem_singleton,
        decide_eq_true_eq]
      rcases eq_or_ne x v with rfl | hxv
      · simp [hv]
      · simp [hxv]
    · have h1 : toggle arr v = arr ++ [v] := by
        rw [toggle, if_neg (by simpa using hv)]
      have h2 : toggle (arr ++ [v]) v = (arr ++ [v]).filter fun x => x ≠ v := by
        rw [toggle, if_pos (by simp)]
      have h3 : ((arr ++ [v]).filter fun x => x ≠ v) = arr := by
        rw [List.filter_append]
        have hself : arr.filter (fun x => x ≠ v) = arr :=
          List.filter_eq_self.mpr fun a ha => by
            simp only [decide_eq_true_eq]
            exact fun h => hv (h ▸ ha)
        have hsing : ([v].filter fun x => x ≠ v) = [] := by simp
        rw [hself, hsing, List.append_nil]
      rw [h1, h2, h3]

/-- Witness for C10 at a concrete duplicate-free list. -/
theorem claim_C10_witness :
    toggle ["a", "b"] "a" = ["b"] ∧
    (∀ x, x ∈ toggle (toggle ["a", "b"] "a") "a" ↔ x ∈ ["a", "b"]) := by
  have h := claim_C10 ["a", "b"] "a" (by decide)
  refine ⟨?_, h.2.2⟩
  rw [h.1 (by decide)]
  decide

/-- Claim C2 (refuted, the code contradicts the intent of its own
`try`/`catch`): for an unparseable `release_date` the derived year is the
string `"NaN"`, not `""` — `getFullYear()` of an Invalid Date returns
`NaN` without throwing, `String(NaN)` is `"NaN"`, and the `catch`
returning `""` never runs.  The item does fail the year filter under a
selection not containing `"NaN"`, but the `"NaN"` bucket itself is
selectable and then matches. -/
theorem claim_C2_eval :
    computeYear (some "hello") = "NaN" ∧
    computeYear (some "hello") ≠ "" ∧
    yearOk ["2025"] (some "hello") = false ∧
    yearOk ["NaN"] (some "hello") = true := by
  refine ⟨rfl, by decide, by decide, by decide⟩

/-- Claim C3: a non-empty selection on a multi-valued facet dimension
(industries, personas, topics, tags) passes an item iff the item's label
set (empty when the field is absent) contains ALL selected values; every
item surviving `filtered` passes all four such checks. -/
theorem claim_C3 :
    (∀ (sel : List String) (labels : Option (List String)), sel ≠ [] →
      (multiOk sel labels = true ↔ ∀ v ∈ sel, v ∈ labels.getD [])) ∧
    (∀ (st : QueryState) (items : List Item) (p : Item),
      p ∈ filteredList st items →
        multiOk st.industries p.industries = true ∧
        multiOk st.personas p.personas = true ∧
        multiOk st.topics p.topics = true ∧
        multiOk st.tags p.tags = true) := by
  constructor
  · intro sel labels hsel
    rw [multiOk]
    rw [List.isEmpty_eq_false.mpr hsel]
    simp [List.all_eq_true]
  · intro st items p hp
    have hpass : itemPasses st ⟨trimChars st.q.data⟩ p = true :=
      (List.mem_filter.mp hp).2
    rw [itemPasses] at hpass
    simp only [Bool.and_eq_true] at hpass
    exact ⟨hpass.1.1.1.1.1.2, hpass.1.1.1.1.2, hpass.1.1.1.2, hpass.1.1.2⟩

/-- Witness for C3: with selection `{Tech, Finance}` an item carrying both
labels passes and an item lacking `Finance` is excluded. -/
theorem claim_C3_witness :
    multiOk ["Tech", "Finance"] (some ["Tech", "Finance"]) = true ∧
    multiOk ["Tech", "Finance"] (some ["SaaS", "Tech"]) ≠ true := by
  constructor
  · exact (claim_C3.1 _ _ (by decide)).mpr (by decide)
  · intro h
    have hall := (claim_C3.1 _ _ (by decide)).mp h
    exact absurd (hall "Finance" (by decide)) (by decide)

/-- Claim C4: a non-empty selection on a single-valued dimension (content
type, funnel stage, year) passes an item iff the item's value (resp. the
derived year) is a member of the selection; an empty selection imposes no
constraint; every item surviving `filtered` passes all three checks. -/
theorem claim_C4 :
    (∀ (sel : List String) (t : String), sel ≠ [] →
      (singleOk sel (some t) = true ↔ t ∈ sel)) ∧
    (∀ (sel : List String) (rd : Option String), sel ≠ [] →
      (yearOk sel rd = true ↔ computeYear rd ∈ sel)) ∧
    (∀ v : Option String, singleOk [] v = true) ∧
    (∀ rd : Option String, yearOk [] rd = true) ∧
    (∀ (st : QueryState) (items : List Item) (p : Item),
      p ∈ filteredList st items →
        singleOk st.ctype p.content_type = true ∧
        singleOk st.stage p.funnel_stage = true ∧
        yearOk st.year p.release_date = true) := by
  refine ⟨?_, ?_, ?_, ?_, ?_⟩
  · intro sel t hsel
    rw [singleOk, List.isEmpty_eq_false.mpr hsel]
    simp [includesOpt]
  · intro sel rd hsel
    rw [yearOk, List.isEmpty_eq_false.mpr hsel]
    simp
  · intro v
    rw [singleOk]
    simp [List.isEmpty]
  · intro rd
    rw [yearOk]
    simp [List.isEmpty]
  · intro st items p hp
    have hpass : itemPasses st ⟨trimChars st.q.data⟩ p = true :=
      (List.mem_filter.mp hp).2
    rw [itemPasses] at hpass
    simp only [Bool.and_eq_true] at hpass
    exact ⟨hpass.1.1.1.1.1.1.2, hpass.1.2, hpass.2⟩

/-- Witness for C4: OR semantics of the content-type selection at concrete
values, and a no-constraint empty selection. -/
theorem claim_C4_witness :
    singleOk ["video", "whitepaper"] (some "video") = true ∧
    singleOk ["video"] (some "whitepaper") ≠ true ∧
    singleOk [] (some "slide") = true := by
  refine ⟨?_, ?_, claim_C4.2.2.1 _⟩
  · exact (claim_C4.1 _ _ (by decide)).mpr (by decide)
  · intro h
    exact absurd ((claim_C4.1 _ _ (by decide)).mp h) (by decide)

/-- Claim C5: the free-text stage passes iff the trimmed term is empty or
occurs case-insensitively in the `" \n "`-join of title, summary, topics,
tags, personas and industries; a case-insensitive occurrence inside any
single field suffices. -/
theorem claim_C5 (p : Item) (q : String) :
    (fullTextMatch p q = true ↔
      (q = "" ∨ ∃ a b, lowerChars (joinSep " \n " (ftFields p)).data
          = a ++ lowerChars q.data ++ b)) ∧
    (∀ f ∈ ftFields p,
      (∃ a b, lowerChars f.data = a ++ lowerChars q.data ++ b) →
        fullTextMatch p q = true) := by
  constructor
  · rw [fullTextMatch]
    by_cases hq : q = ""
    · rw [if_pos hq]
      simp [hq]
    · rw [if_neg hq]
      rw [includesI, hasSub_iff]
      simp only [hq, false_or]
  · intro f hf ⟨a, b, hab⟩
    rw [fullTextMatch]
    by_cases hq : q = ""
    · rw [if_pos hq]
    · rw [if_neg hq, includesI, hasSub_iff]
      obtain ⟨a', b', hj⟩ := joinSep_mem_decomp " \n " (ftFields p) f hf
      refine ⟨lowerChars a' ++ a, b ++ lowerChars b', ?_⟩
      rw [hj, lowerChars_append, lowerChars_append, hab]
      simp [List.append_assoc]

/-- Witness for C5: the sample whitepaper title alone makes the item pass
the search `"zero trust"`. -/
theorem claim_C5_witness : fullTextMatch sample1 "zero trust" = true :=
  (claim_C5 sample1 "zero trust").2 (sample1.title.getD "") (by decide)
    ⟨[], " for 2025: practical roadmap".data, by decide⟩

/-- Claim C6: `pageCount` is `max(1, ceil(total / pageSize))`; the
effective page is the requested page clamped into `[1, pageCount]`; the
visible slice is exactly the elements of the sorted list from index
`(page - 1) * pageSize` up to (excluding) `page * pageSize`. -/
theorem claim_C6 (l : List Item) (S page : Nat) (hS : 1 ≤ S) :
    ((pageCount l.length S : ℤ) = max 1 ⌈(l.length : ℚ) / (S : ℚ)⌉) ∧
    (1 ≤ safePage page (pageCount l.length S) ∧
      safePage page (pageCount l.length S) ≤ pageCount l.length S) ∧
    (1 ≤ page → page ≤ pageCount l.length S →
      safePage page (pageCount l.length S) = page) ∧
    (∀ sp, 1 ≤ sp →
      (pageItems l sp S).length = min S (l.length - (sp - 1) * S) ∧
      ∀ i, i < S → (pageItems l sp S)[i]? = l[(sp - 1) * S + i]?) := by
  refine ⟨?_, ⟨?_, ?_⟩, ?_, ?_⟩
  · rw [pageCount, ← ceilDiv_cast l.length S hS]
    push_cast
    omega
  · rw [safePage, clamp]
    omega
  · rw [safePage, clamp, pageCount]
    omega
  · intro h1 h2
    rw [safePage, clamp]
    omega
  · intro sp hsp
    have hwidth : sp * S - (sp - 1) * S = S := by
      obtain ⟨k, rfl⟩ := Nat.exists_eq_add_of_le hsp
      have : (1 + k) * S = k * S + S := by ring
      rw [this]
      simp [Nat.add_sub_cancel_left, Nat.add_comm 1 k]
    constructor
    · rw [pageItems, jsSlice, hwidth, List.length_take, List.length_drop]
    · intro i hi
      rw [pageItems, jsSlice, hwidth,
        List.getElem?_take_of_lt hi, List.getElem?_drop]

/-- Witness for C6: the spec scenario `pageSize = 1`, requested page `5`,
3 items: the effective page is `3` and the slice is the last item. -/
theorem claim_C6_witness :
    ((pageCount SAMPLE_items.length 1 : ℤ)
        = max 1 ⌈(SAMPLE_items.length : ℚ) / ((1 : Nat) : ℚ)⌉) ∧
    ((pageItems SAMPLE_items 3 1).length
        = min 1 (SAMPLE_items.length - (3 - 1) * 1)) ∧
    safePage 5 (pageCount SAMPLE_items.length 1) = 3 ∧
    pageItems SAMPLE_items (safePage 5 (pageCount SAMPLE_items.length 1)) 1
      = [sample3] := by
  refine ⟨(claim_C6 SAMPLE_items 1 5 (by decide)).1,
    ((claim_C6 SAMPLE_items 1 5 (by decide)).2.2.2 3 (by decide)).1,
    by decide, ?_⟩
  rfl

/-- Claim C7: each facet tally maps a label to its number of occurrences
among the filtered items (multi-valued dimensions contribute once per
occurrence per item), computed over the full filtered set; the counts of
the content-type tally sum to the filtered set's size. -/
theorem claim_C7 (st : QueryState) (items : List Item) (k : String) :
    (tallyGet (facetType (filteredList st items)) k
      = ((filteredList st items).map fun p => p.content_type.getD "content").count k) ∧
    (tallyGet (facetYear (filteredList st items)) k
      = ((filteredList st items).map fun p => computeYear p.release_date).count k) ∧
    (tallyGet (facetIndustries (filteredList st items)) k
      = ((filteredList st items).flatMap fun p => p.industries.getD []).count k) ∧
    (tallyGet (facetPersonas (filteredList st items)) k
      = ((filteredList st items).flatMap fun p => p.personas.getD []).count k) ∧
    (tallyGet (facetTopics (filteredList st items)) k
      = ((filteredList st items).flatMap fun p => p.topics.getD []).count k) ∧
    (tallyGet (facetTags (filteredList st items)) k
      = ((filteredList st items).flatMap fun p => p.tags.getD []).count k) ∧
    (tallyGet (facetStage (filteredList st items)) k
      = ((filteredList st items).map fun p => p.funnel_stage.getD "undefined").count k) ∧
    tallyTotal (facetType (filteredList st items)) = (filteredList st items).length := by
  refine ⟨tallyGet_tally _ _, tallyGet_tally _ _, tallyGet_tally _ _,
    tallyGet_tally _ _, tallyGet_tally _ _, tallyGet_tally _ _,
    tallyGet_tally _ _, ?_⟩
  rw [facetType, tallyTotal_tally, List.length_map]

/-- Claim C9 (amended): the loader yields the body itself for an array
body and the `items` property for an object exposing an items array; an
absent or falsy `items` property and a primitive body yield the empty
list, but a truthy non-array `items` value is passed through as-is, and a
JSON `null` body throws (`null.items`) into the same `catch` as fetch
errors; every caught error substitutes the fixed 3-item sample catalog
with a non-blocking warning; loading always ends `false`. -/
theorem claim_C9 (r : FetchResult) :
    (runLoad r).loading = false ∧
    (∀ l, r = .success (.array l) → runLoad r = ⟨.list l, "", false⟩) ∧
    (∀ l, r = .success (.obj (some (.arrayItems l))) →
      runLoad r = ⟨.list l, "", false⟩) ∧
    (r = .success (.obj (some .truthyOther)) →
      runLoad r = ⟨.nonArray, "", false⟩) ∧
    (r = .success (.obj (some .falsyOther)) ∨ r = .success (.obj none) ∨
        r = .success .prim →
      runLoad r = ⟨.list [], "", false⟩) ∧
    ((r = .success .jsonNull ∨ (∃ s, r = .httpError s) ∨
        r = .networkError ∨ r = .jsonParseError) →
      runLoad r = ⟨.list SAMPLE_items, fallbackMsg, false⟩ ∧
        SAMPLE_items.length = 3) := by
  refine ⟨?_, ?_, ?_, ?_, ?_, ?_⟩
  · cases r with
    | success body =>
      cases body with
      | array l => rfl
      | jsonNull => rfl
      | obj ip =>
        cases ip with
        | none => rfl
        | some v => cases v <;> rfl
      | prim => rfl
    | httpError s => rfl
    | networkError => rfl
    | jsonParseError => rfl
  · rintro l rfl
    rfl
  · rintro l rfl
    rfl
  · rintro rfl
    rfl
  · rintro (rfl | rfl | rfl) <;> rfl
  · rintro (rfl | ⟨s, rfl⟩ | rfl | rfl) <;> exact ⟨rfl, rfl⟩

/-- Witness for C9 applied to a failing fetch: fallback catalog and
warning. -/
theorem claim_C9_witness :
    runLoad .networkError = ⟨.list SAMPLE_items, fallbackMsg, false⟩ ∧
    SAMPLE_items.length = 3 :=
  (claim_C9 .networkError).2.2.2.2.2 (Or.inr (Or.inr (Or.inl rfl)))

/-- Claim C9 as stated is refuted at the JSON body `null` (a successful
HTTP response whose JSON body is of "any other shape"): the code does not
yield an empty list there — `null.items` throws, so the state becomes the
3-item sample catalog plus a warning. -/
theorem claim_C9_cex :
    runLoad (.success .jsonNull) = ⟨.list SAMPLE_items, fallbackMsg, false⟩ ∧
    (runLoad (.success .jsonNull)).items ≠ .list [] ∧
    (runLoad (.success .jsonNull)).error ≠ "" := by
  refine ⟨rfl, by decide, by decide⟩

/-- Claim C8: under sort modes `shortest` and `longest` the result is a
permutation of the input ordered with `read_time_min` (missing treated as
`0`) as primary key — ascending resp. descending — and `release_date`
descending as secondary key: among equal read-time keys the more recent
item comes first in both modes.  (Stated for lists whose dates all parse;
an Invalid Date makes the date comparator `NaN`, which `SortCompare`
treats as a tie.) -/
theorem claim_C8 (sq : String) (now : Int) (l : List Item)
    (hd : ∀ p ∈ l, (jsGetTime p.release_date).isSome = true) :
    ((sortedItems "shortest" sq now l).Perm l ∧
      (sortedItems "shortest" sq now l).Pairwise fun a b =>
        readTime a < readTime b ∨ (readTime a = readTime b ∧
          ∀ ta tb, jsGetTime a.release_date = some ta →
            jsGetTime b.release_date = some tb → tb ≤ ta)) ∧
    ((sortedItems "longest" sq now l).Perm l ∧
      (sortedItems "longest" sq now l).Pairwise fun a b =>
        readTime b < readTime a ∨ (readTime a = readTime b ∧
          ∀ ta tb, jsGetTime a.release_date = some ta →
            jsGetTime b.release_date = some tb → tb ≤ ta)) := by
  have key : ∀ p ∈ l, ∃ t, jsGetTime p.release_date = some t := by
    intro p hp
    exact Option.isSome_iff_exists.mp (hd p hp)
  have hshort : sortedItems "shortest" sq now l
      = List.insertionSort (fun a b => shortestLe a b = true) l := rfl
  have hlong : sortedItems "longest" sq now l
      = List.insertionSort (fun a b => longestLe a b = true) l := rfl
  refine ⟨⟨?_, ?_⟩, ⟨?_, ?_⟩⟩
  · rw [hshort]
    exact List.perm_insertionSort _ l
  · rw [hshort]
    have hpw : (List.insertionSort (fun a b => shortestLe a b = true) l).Pairwise
        fun a b => shortestLe a b = true := by
      apply pairwise_insertionSort_of
      · intro a ha b hb
        obtain ⟨ta, hta⟩ := key a ha
        obtain ⟨tb, htb⟩ := key b hb
        rw [shortestLe_char a b ta tb hta htb, shortestLe_char b a tb ta htb hta]
        omega
      · intro a ha b hb c hc hab hbc
        obtain ⟨ta, hta⟩ := key a ha
        obtain ⟨tb, htb⟩ := key b hb
        obtain ⟨tc, htc⟩ := key c hc
        rw [shortestLe_char a b ta tb hta htb] at hab
        rw [shortestLe_char b c tb tc htb htc] at hbc
        rw [shortestLe_char a c ta tc hta htc]
        omega
    refine List.Pairwise.imp_of_mem ?_ hpw
    intro a b hma hmb hab
    obtain ⟨ta, hta⟩ := key a ((List.mem_insertionSort _).mp hma)
    obtain ⟨tb, htb⟩ := key b ((List.mem_insertionSort _).mp hmb)
    rw [shortestLe_char a b ta tb hta htb] at hab
    rcases hab with h | ⟨heq, hle⟩
    · exact Or.inl h
    · refine Or.inr ⟨heq, fun ta' tb' hta' htb' => ?_⟩
      rw [hta] at hta'
      rw [htb] at htb'
      cases Option.some.inj hta'
      cases Option.some.inj htb'
      exact hle
  · rw [hlong]
    exact List.perm_insertionSort _ l
  · rw [hlong]
    have hpw : (List.insertionSort (fun a b => longestLe a b = true) l).Pairwise
        fun a b => longestLe a b = true := by
      apply pairwise_insertionSort_of
      · intro a ha b hb
        obtain ⟨ta, hta⟩ := key a ha
        obtain ⟨tb, htb⟩ := key b hb
        rw [longestLe_char a b ta tb hta htb, longestLe_char b a tb ta htb hta]
        omega
      · intro a ha b hb c hc hab hbc
        obtain ⟨ta, hta⟩ := key a ha
        obtain ⟨tb, htb⟩ := key b hb
        obtain ⟨tc, htc⟩ := key c hc
        rw [longestLe_char a b ta tb hta htb] at hab
        rw [longestLe_char b c tb tc htb htc] at hbc
        rw [longestLe_char a c ta tc hta htc]
        omega
    refine List.Pairwise.imp_of_mem ?_ hpw
    intro a b hma hmb hab
    obtain ⟨ta, hta⟩ := key a ((List.mem_insertionSort _).mp hma)
    obtain ⟨tb, htb⟩ := key b ((List.mem_insertionSort _).mp hmb)
    rw [longestLe_char a b ta tb hta htb] at hab
    rcases hab with h | ⟨heq, hle⟩
    · exact Or.inl h
    · refine Or.inr ⟨heq, fun ta' tb' hta' htb' => ?_⟩
      rw [hta] at hta'
      rw [htb] at htb'
      cases Option.some.inj hta'
      cases Option.some.inj htb'
      exact hle

/-- Witness for C8 at the sample catalog. -/
theorem claim_C8_witness :
    (sortedItems "shortest" "" 0 SAMPLE_items).Perm SAMPLE_items ∧
    (sortedItems "longest" "" 0 SAMPLE_items).Perm SAMPLE_items := by
  have h := claim_C8 "" 0 SAMPLE_items (by decide)
  exact ⟨h.1.1, h.2.1⟩

/-- Claim C1: under sort mode `relevance` with a non-empty trimmed term,
the result is a permutation of the input ordered by total score
descending, where an item's score is the sum over the non-empty
whitespace tokens of the lower-cased trimmed term of
`5·(title hit) + 2·(summary hit) + 1·(hit anywhere in the concatenation)`
plus the recency bonus `max(0, 2 - ageInYears)` with a 365-day year; with
an empty trimmed term `relevance` coincides with `newest`. -/
theorem claim_C1 (now : Int) (q : String) (l : List Item) :
    (((⟨trimChars q.data⟩ : String) ≠ "") →
      (sortedItems "relevance" q now l).Perm l ∧
      ((∀ p ∈ l, (jsGetTime p.release_date).isSome = true) →
        (sortedItems "relevance" q now l).Pairwise fun a b =>
          ∀ sa sb, score now q a = some sa → score now q b = some sb → sb ≤ sa) ∧
      (∀ (p : Item) (t : Int), jsGetTime p.release_date = some t →
        score now q p
          = some ((((terms q).filter fun w => w ≠ []).map (hitScore p)).sum
              + max 0 (2 - ((now - t : Int) : ℚ) / 31536000000)))) ∧
    (((⟨trimChars q.data⟩ : String) = "") →
      sortedItems "relevance" q now l = sortedItems "newest" q now l) := by
  constructor
  · intro hq
    have hrel : sortedItems "relevance" q now l
        = List.insertionSort (fun a b => relevLe now q a b = true) l := by
      show (if (⟨trimChars q.data⟩ : String) ≠ "" then
        List.insertionSort (fun a b => relevLe now q a b = true) l
      else List.insertionSort (fun a b => newestLe a b = true) l) = _
      rw [if_pos hq]
    refine ⟨?_, ?_, ?_⟩
    · rw [hrel]
      exact List.perm_insertionSort _ l
    · intro hd
      have key : ∀ p ∈ l, ∃ s, score now q p = some s := by
        intro p hp
        obtain ⟨t, ht⟩ := Option.isSome_iff_exists.mp (hd p hp)
        exact ⟨_, score_eq_some now q p t ht⟩
      rw [hrel]
      have hpw : (List.insertionSort (fun a b => relevLe now q a b = true) l).Pairwise
          fun a b => relevLe now q a b = true := by
        apply pairwise_insertionSort_of
        · intro a ha b hb
          obtain ⟨sa, hsa⟩ := key a ha
          obtain ⟨sb, hsb⟩ := key b hb
          rw [relevLe_char now q a b sa sb hsa hsb,
            relevLe_char now q b a sb sa hsb hsa]
          exact le_total sb sa
        · intro a ha b hb c hc hab hbc
          obtain ⟨sa, hsa⟩ := key a ha
          obtain ⟨sb, hsb⟩ := key b hb
          obtain ⟨sc, hsc⟩ := key c hc
          rw [relevLe_char now q a b sa sb hsa hsb] at hab
          rw [relevLe_char now q b c sb sc hsb hsc] at hbc
          rw [relevLe_char now q a c sa sc hsa hsc]
          exact le_trans hbc hab
      refine List.Pairwise.imp_of_mem ?_ hpw
      intro a b hma hmb hab sa sb hsa hsb
      rw [relevLe_char now q a b sa sb hsa hsb] at hab
      exact hab
    · intro p t ht
      exact score_eq_some now q p t ht
  · intro hq
    have h1 : sortedItems "relevance" q now l
        = List.insertionSort (fun a b => newestLe a b = true) l := by
      show (if (⟨trimChars q.data⟩ : String) ≠ "" then
        List.insertionSort (fun a b => relevLe now q a b = true) l
      else List.insertionSort (fun a b => newestLe a b = true) l) = _
      rw [if_neg (by simp [hq])]
    have h2 : sortedItems "newest" q now l
        = List.insertionSort (fun a b => newestLe a b = true) l := rfl
    rw [h1, h2]

/-- Witness for C1: the relevance sort at the search `"zero trust"` over
the sample catalog, and the degenerate empty-term case at `" "`. -/
theorem claim_C1_witness :
    ((sortedItems "relevance" "zero trust" 1763510400000 SAMPLE_items).Perm
        SAMPLE_items ∧
      (sortedItems "relevance" "zero trust" 1763510400000 SAMPLE_items).Pairwise
        fun a b => ∀ sa sb, score 1763510400000 "zero trust" a = some sa →
          score 1763510400000 "zero trust" b = some sb → sb ≤ sa) ∧
    sortedItems "relevance" " " 1763510400000 SAMPLE_items
      = sortedItems "newest" " " 1763510400000 SAMPLE_items := by
  refine ⟨⟨?_, ?_⟩, ?_⟩
  · exact ((claim_C1 1763510400000 "zero trust" SAMPLE_items).1 (by decide)).1
  · exact ((claim_C1 1763510400000 "zero trust" SAMPLE_items).1 (by decide)).2.1
      (by decide)
  · exact (claim_C1 1763510400000 " " SAMPLE_items).2 (by decide)

end FairwayLib
